import Mathlib

/-!
Verification development for the ManMitra FastAPI backend's resilient
AI-gateway pipeline (`app/api/services/ai_services.py`, `app/core/security.py`,
`app/core/config.py`).

Shallow embedding conventions:
* Wall-clock instants (`datetime.now()`) are an integer number of seconds `now : ℤ`
  supplied to each operation; `now.date()` is `now / 86400`.  Within one Python
  method the several `datetime.now()` calls are the same instant.
* The external Gemini model call is an opaque capability: its outcome is a
  parameter `modelOutcome : Except String String` (error message or text).
  Python's `try`/`except Exception` is modelled by total catching of that outcome.
* `random.choice(pool)` is modelled by a caller-supplied index `choice : ℕ`,
  selecting `pool[choice % len(pool)]`.
* The md5 request fingerprint of `f"{prompt}_{temperature}"` is modelled as the
  pair `(prompt, temperature)` itself (the code relies on its injectivity);
  the float temperature is modelled as a rational.
* Python dicts (`response_cache`) are association lists in insertion order:
  assignment to an existing key updates in place, to a new key appends;
  `min(keys, key=...)` returns the first key achieving the minimum.
* `GenResult.admitted` / `GenResult.modelCalled` instrument which path produced
  the answer (timestamp recorded / external model invoked); the Python code
  returns only the text.
-/

namespace ManMitra

/-! ### Text primitives (Python `str.lower`, `in`, `str.strip`, `"\n".join`) -/

/-- Python `s.lower()` (ASCII case mapping, which is all these inputs use). -/
def lowerStr (s : String) : String := String.mk (s.data.map Char.toLower)

/-- `needle` occurs as a contiguous sublist of `hay`. -/
def isSubChars (needle : List Char) : List Char → Bool
  | [] => needle.isEmpty
  | c :: rest => needle.isPrefixOf (c :: rest) || isSubChars needle rest

/-- Python `needle in hay` for strings: substring containment. -/
def containsSub (hay needle : String) : Bool := isSubChars needle.data hay.data

/-- Python `str.strip()` on the character list. -/
def stripChars (l : List Char) : List Char :=
  ((l.dropWhile Char.isWhitespace).reverse.dropWhile Char.isWhitespace).reverse

/-- Python `s.strip()`. -/
def pyStrip (s : String) : String := String.mk (stripChars s.data)

/-- Python `"\n".join(parts)`. -/
def joinNL : List String → String
  | [] => ""
  | [x] => x
  | x :: y :: xs => x ++ "\n" ++ joinNL (y :: xs)

/-- Python `l[-n:]`. -/
def lastN {α : Type} (n : Nat) (l : List α) : List α := l.drop (l.length - n)

/-! ### Configuration (`app/core/config.py`) -/

def MAX_MESSAGE_LENGTH : Nat := 2000

/-- `Settings.crisis_keywords_list` (the default `CRISIS_KEYWORDS` split on commas). -/
def crisis_keywords_list : List String :=
  ["suicide", "kill myself", "end it", "don't want to live", "self harm",
   "hurt myself", "die", "death", "dead", "not worth living", "better off dead",
   "end my life"]

/-! ### SafetyService (`app/core/security.py`) -/

inductive ValidationResult where
  | invalid (reason : String) (sanitized_text : String)
  | valid (sanitized_text : String)
deriving DecidableEq

/-- `SafetyService.validate_message`. -/
def validate_message (message : String) : ValidationResult :=
  if message = "" ∨ (pyStrip message).length = 0 then
    .invalid "Message cannot be empty" ""
  else
    let sanitized := pyStrip message
    if MAX_MESSAGE_LENGTH < sanitized.length then
      .invalid ("Message too long (max " ++ toString MAX_MESSAGE_LENGTH ++ " characters)")
        (String.mk (sanitized.data.take MAX_MESSAGE_LENGTH))
    else .valid sanitized

structure CrisisResult where
  is_crisis : Bool
  severity : String
  matched_patterns : List String
deriving DecidableEq

def high_severity_keywords : List String :=
  ["suicide", "kill myself", "end it", "don't want to live", "self harm", "hurt myself"]

def medium_severity_keywords : List String :=
  ["die", "death", "dead", "not worth living", "better off dead", "end my life"]

/-- `SafetyService.detect_crisis`. -/
def detect_crisis (message : String) : CrisisResult :=
  let message_lower := lowerStr message
  let matched := crisis_keywords_list.filter (fun kw => containsSub message_lower (lowerStr kw))
  if matched.isEmpty then ⟨false, "none", []⟩
  else
    let severity :=
      if high_severity_keywords.any (fun kw => containsSub message_lower kw) then "high"
      else if medium_severity_keywords.any (fun kw => containsSub message_lower kw) then "medium"
      else "low"
    ⟨true, severity, matched⟩

/-! ### GeminiService state (`ai_services.py`, `__init__`) -/

abbrev CacheKey := String × ℚ

structure CacheEntry where
  key : CacheKey
  response : String
  timestamp : ℤ
deriving DecidableEq

structure GeminiState where
  modelConfigured : Bool
  requestTimestamps : List ℤ
  dailyTokenCount : Nat
  lastResetDate : ℤ
  responseCache : List CacheEntry
  backoffUntil : Option ℤ
  consecutiveFailures : Nat
deriving DecidableEq

def requests_per_minute : Nat := 10
def max_tokens_per_day : Nat := 50000
def cache_ttl : ℤ := 3600

/-- The state `__init__` builds (model configured or not, process start date). -/
def initGemini (configured : Bool) (day0 : ℤ) : GeminiState :=
  ⟨configured, [], 0, day0, [], none, 0⟩

def dateOf (t : ℤ) : ℤ := t / 86400

/-! ### Cache primitives (Python dict in insertion order) -/

def findEntry (k : CacheKey) : List CacheEntry → Option CacheEntry
  | [] => none
  | e :: rest => if e.key = k then some e else findEntry k rest

def insertEntry (k : CacheKey) (resp : String) (ts : ℤ) : List CacheEntry → List CacheEntry
  | [] => [⟨k, resp, ts⟩]
  | e :: rest => if e.key = k then ⟨k, resp, ts⟩ :: rest else e :: insertEntry k resp ts rest

def eraseEntry (k : CacheKey) : List CacheEntry → List CacheEntry
  | [] => []
  | e :: rest => if e.key = k then rest else e :: eraseEntry k rest

/-- `min(keys, key=timestamp)` scan: replace the champion only on a strictly
smaller timestamp, so the first minimal entry wins. -/
def oldestFrom (best : CacheEntry) : List CacheEntry → CacheEntry
  | [] => best
  | e :: rest => if e.timestamp < best.timestamp then oldestFrom e rest else oldestFrom best rest

def oldestEntry : List CacheEntry → Option CacheEntry
  | [] => none
  | e :: rest => some (oldestFrom e rest)

/-- `GeminiService._cache_response` on the raw dict: insert, then if more than
100 entries remain delete the oldest-by-creation-time key. -/
def putCache (k : CacheKey) (resp : String) (now : ℤ) (cache : List CacheEntry) :
    List CacheEntry :=
  let c := insertEntry k resp now cache
  if 100 < c.length then
    match oldestEntry c with
    | some e => eraseEntry e.key c
    | none => c
  else c

/-! ### GeminiService operations -/

/-- `ts > now - timedelta(minutes=1)`: keep only the trailing minute. -/
def purgeOld (now : ℤ) (ts : List ℤ) : List ℤ := ts.filter (fun s => decide (now - 60 < s))

/-- `GeminiService._check_rate_limit`: daily-counter rollover, backoff check
(before any purge), purge, then compare against the RPM limit. -/
def check_rate_limit (st : GeminiState) (now : ℤ) : Bool × GeminiState :=
  let st1 := if st.lastResetDate < dateOf now then
      { st with dailyTokenCount := 0, lastResetDate := dateOf now }
    else st
  let inB := match st1.backoffUntil with | some b => decide (now < b) | none => false
  if inB then (false, st1)
  else
    let ts := purgeOld now st1.requestTimestamps
    let st2 := { st1 with requestTimestamps := ts }
    if requests_per_minute ≤ ts.length then (false, st2) else (true, st2)

/-- `GeminiService._get_cached_response`: miss, or expired (evict and miss),
or hit. -/
def get_cached_response (st : GeminiState) (k : CacheKey) (now : ℤ) :
    Option String × GeminiState :=
  match findEntry k st.responseCache with
  | none => (none, st)
  | some e =>
    if cache_ttl < now - e.timestamp then
      (none, { st with responseCache := eraseEntry k st.responseCache })
    else (some e.response, st)

/-- `GeminiService._cache_response`. -/
def cache_response (st : GeminiState) (k : CacheKey) (resp : String) (now : ℤ) :
    GeminiState :=
  { st with responseCache := putCache k resp now st.responseCache }

/-- `GeminiService._handle_rate_limit_error`. -/
def handle_rate_limit_error (st : GeminiState) (now : ℤ) (errorStr : String) : GeminiState :=
  let failures := st.consecutiveFailures + 1
  let backoffSeconds : Nat :=
    if containsSub errorStr "retry_delay" || containsSub errorStr "30" then 35
    else min (2 ^ failures * 30) 600
  { st with consecutiveFailures := failures,
            backoffUntil := some (now + (backoffSeconds : ℤ)) }

/-- `"quota" in error_str.lower() or "429" in error_str or "rate" in error_str.lower()`. -/
def is_rate_limit_error (err : String) : Bool :=
  containsSub (lowerStr err) "quota" || containsSub err "429" || containsSub (lowerStr err) "rate"

/-- Token estimate: `len(prompt) // 4 + 150`. -/
def estimate_tokens (prompt : String) : Nat := prompt.length / 4 + 150

/-! ### Fallback responder (`_generate_fallback_response`) -/

def anxiety_keywords : List String :=
  ["anxious", "worried", "panic", "overwhelmed", "stressed", "चिंता", "परेशान", "تناؤ", "tension"]

def sadness_keywords : List String :=
  ["sad", "depressed", "down", "hopeless", "empty", "उदास", "दुखी", "غمگین", "udaas"]

def academic_keywords : List String :=
  ["study", "exam", "academic", "pressure", "grades", "पढ़ाई", "امتحان", "padhai", "imtihaan"]

def anxiety_responses : List String :=
  ["Yaar, I can tell you're feeling anxious right now. Let's try this first-aid technique: Take 4 deep breaths - in for 4, hold for 4, out for 4. What's causing this stress, bro?",
   "Bhai, anxiety feels overwhelming na? Try the 5-4-3-2-1 technique: Name 5 things you see, 4 you can touch, 3 you hear, 2 you smell, 1 you taste. Kya specific thing is worrying you?",
   "Dude, that anxiety is real but manageable. Quick tip: Put your hand on your chest, feel your heartbeat, breathe with it. Now tell me what's the main stressor?",
   "Hey yaar, anxiety attack? Try cold water on your wrists or drink some water slowly. Main hoon na - what's weighing heavy on your mind right now?"]

def sadness_responses : List String :=
  ["Bro, sounds like you're going through a tough time. Quick first-aid: Try to get some sunlight or bright light, even for 10 minutes. Your feelings are valid - what's been happening?",
   "Yaar, I can hear you're struggling. First-aid tip: Do one small thing you normally enjoy - chai, music, calling a friend. Kab se feeling this way?",
   "Bhai, those heavy feelings are real. Try this: Write down 3 small things you're grateful for today. Main yahan hoon - what's been the hardest part?",
   "Dude, when feeling low, movement helps - even 5 minutes walking. Your feelings matter, no judgment here. Kya specifically going on?"]

def academic_responses : List String :=
  ["Yaar, academic pressure is real. First-aid tip: Break your study into 25-min chunks with 5-min breaks (Pomodoro). Your worth isn't your grades, bro. Which subject is stressing you most?",
   "Bhai, exam stress is tough! Try this: Study for 45 mins, then do something fun for 15 mins. You're doing your best - what's the biggest challenge abhi?",
   "Dude, study pressure getting to you? Quick tip: Make a simple today-only to-do list with just 3 tasks. Sab students feel this - what would help you feel more prepared?",
   "Bro, studies overwhelming you? Try the 2-minute rule: If it takes less than 2 mins, do it now. You're more than your marks - kya specifically bothering you?"]

def general_responses : List String :=
  ["Thanks for sharing that with me, yaar. Your feelings are completely valid. What's been on your mind lately?",
   "Bro, I can hear this is important to you. What would be most helpful to talk about right now?",
   "Takes courage to reach out, dude. I'm glad you're here. Kaisa feeling today?",
   "Yaar, that sounds like a lot to handle. What's been the most challenging part for you?",
   "I'm here to listen and support you, bhai. What's weighing on your dil right now?",
   "That sounds tough to deal with, bro. You don't have to face this alone. Kya chal raha hai?",
   "Hey yaar, main sun raha hoon. Whatever it is, we can talk through it. What's going on?"]

/-- `random.choice(pool)` with the randomness externalized as `choice`. -/
def pickResponse (pool : List String) (choice : Nat) : String :=
  pool.getD (choice % pool.length) ""

/-- `GeminiService._generate_fallback_response`: keyword category sets tried in
priority order, general as the default. -/
def generate_fallback_response (prompt : String) (choice : Nat) : String :=
  let prompt_lower := lowerStr prompt
  if anxiety_keywords.any (fun w => containsSub prompt_lower w) then
    pickResponse anxiety_responses choice
  else if sadness_keywords.any (fun w => containsSub prompt_lower w) then
    pickResponse sadness_responses choice
  else if academic_keywords.any (fun w => containsSub prompt_lower w) then
    pickResponse academic_responses choice
  else pickResponse general_responses choice

/-! ### `GeminiService.generate_response` -/

structure GenResult where
  text : String
  state : GeminiState
  admitted : Bool
  modelCalled : Bool
deriving DecidableEq

/-- `GeminiService.generate_response`.  The `try`/`except` absorbing every model
failure is the `.error` branch; the function is total, so a text is always
produced. -/
def generate_response (st : GeminiState) (prompt : String) (temperature : ℚ)
    (now : ℤ) (modelOutcome : Except String String) (choice : Nat) : GenResult :=
  if st.modelConfigured = false then
    ⟨generate_fallback_response prompt choice, st, false, false⟩
  else
    let key : CacheKey := (prompt, temperature)
    let cr := get_cached_response st key now
    if (cr.1.getD "") ≠ "" then ⟨cr.1.getD "", cr.2, false, false⟩
    else
      let rl := check_rate_limit cr.2 now
      if rl.1 = false then ⟨generate_fallback_response prompt choice, rl.2, false, false⟩
      else
        let st2 := { rl.2 with requestTimestamps := rl.2.requestTimestamps ++ [now] }
        let est := estimate_tokens prompt
        if max_tokens_per_day ≤ st2.dailyTokenCount + est then
          ⟨generate_fallback_response prompt choice, st2, true, false⟩
        else
          match modelOutcome with
          | .ok text =>
            let st3 := { st2 with dailyTokenCount := st2.dailyTokenCount + est,
                                  consecutiveFailures := 0 }
            ⟨text, cache_response st3 key text now, true, true⟩
          | .error err =>
            let st3 := if is_rate_limit_error err then handle_rate_limit_error st2 now err
                       else st2
            ⟨generate_fallback_response prompt choice, st3, true, true⟩

structure ApiStatus where
  api_key_configured : Bool
  requests_this_minute : Nat
  tokens_used_today : Nat
  in_backoff : Bool
  consecutive_failures : Nat
  cache_size : Nat
  quota_exhausted : Bool
deriving DecidableEq

/-- `GeminiService.get_api_status` (it also purges the rate window). -/
def get_api_status (st : GeminiState) (now : ℤ) : ApiStatus × GeminiState :=
  let ts := purgeOld now st.requestTimestamps
  let st2 := { st with requestTimestamps := ts }
  (⟨st2.modelConfigured, ts.length, st2.dailyTokenCount,
    (match st2.backoffUntil with | some b => decide (now < b) | none => false),
    st2.consecutiveFailures, st2.responseCache.length,
    decide (max_tokens_per_day ≤ st2.dailyTokenCount)⟩, st2)

/-! ### Gateway traces -/

/-- One externally triggered gateway operation. -/
inductive GEvent where
  | gen (now : ℤ) (prompt : String) (temperature : ℚ)
        (modelOutcome : Except String String) (choice : Nat)
  | status (now : ℤ)

def GEvent.time : GEvent → ℤ
  | .gen now _ _ _ _ => now
  | .status now => now

/-- Run a sequence of gateway operations; also collect the instants at which
the rate limiter admitted a call (the recorded timestamps). -/
def runGateway : GeminiState → List GEvent → GeminiState × List ℤ
  | st, [] => (st, [])
  | st, .gen now p T orc c :: rest =>
    let r := generate_response st p T now orc c
    let rec' := runGateway r.state rest
    (rec'.1, if r.admitted then now :: rec'.2 else rec'.2)
  | st, .status now :: rest =>
    runGateway (get_api_status st now).2 rest

/-! ### BestieService (`ai_services.py`) -/

def bestie_prompt_parts : List String :=
  ["You are Bestie, an AI-guided first-aid mental health support companion for students.",
   "Role: Provide immediate emotional first-aid, practical coping strategies, and refer to professionals when needed.",
   "Personality: Supportive bro who's got your back - understanding, real, and helpful with practical solutions.",
   "Language: Mix English, Hindi, Hinglish, Urdu, Roman Urdu naturally. Use bro terms like 'bhai', 'yaar', 'dude', 'bro'.",
   "First-Aid Focus: Offer 1-2 practical coping strategies, validate feelings, provide immediate support.",
   "Boundaries: You're first-aid support, not therapy. Refer to counselors for complex issues. Never diagnose."]

/-- A history message after `msg.get("role", "user")` / `msg.get("content", "")`
have been applied: `(role, content)`. -/
def historyLine (m : String × String) : String := m.1 ++ ": " ++ m.2

def context_lines (history : List (String × String)) (topic : Option String) :
    List String :=
  (match topic with | some t => ["Topic: " ++ t] | none => []) ++
  (if history.isEmpty then []
   else "Recent conversation:" :: (lastN 3 history).map historyLine)

/-- The full prompt `BestieService._generate_simple_response` assembles. -/
def buildPrompt (message : String) (history : List (String × String))
    (topic : Option String) : String :=
  let ctx := context_lines history topic
  joinNL (bestie_prompt_parts ++
    (if ctx.isEmpty then [] else ["\n" ++ joinNL ctx]) ++
    ["\nUser: " ++ message, "\nBestie: "])

/-- Response cleanup in `_generate_simple_response`: strip, then drop a
leading `"Bestie:"` and strip again. -/
def clean_bestie_response (r : String) : String :=
  let r1 := pyStrip r
  if ("Bestie:").data.isPrefixOf r1.data then pyStrip (String.mk (r1.data.drop 7)) else r1

def crisis_response_high : String :=
  "I'm really concerned about what you're telling me. It sounds like you're going through an incredibly difficult time right now. \n\nYour life has value, and there are people who care about you and want to help. Please reach out to a crisis helpline or emergency services immediately:\n\n• KIRAN Mental Health Helpline: 1800-599-0019 (24/7)\n• Emergency Services: 112\n• Tele-MANAS: 104\n\nYou don't have to face this alone. There is help available, and things can get better."

def crisis_response_medium : String :=
  "I can hear that you're really struggling right now, and I'm worried about you. These feelings are valid, and it's important that you get support.\n\nPlease consider reaching out to:\n• A trusted friend or family member\n• A counselor or mental health professional\n• KIRAN Helpline: 1800-599-0019\n\nYou deserve support and care. Please don't hesitate to reach out for help."

def crisis_response_low : String :=
  "I can sense that you're going through a tough time. It's okay to feel overwhelmed sometimes.\n\nIf you'd like to talk to someone who can provide more support, I'd encourage you to consider speaking with a counselor or reaching out to the KIRAN helpline at 1800-599-0019.\n\nYou're not alone in this, and there are people who want to help."

/-- `BestieService._handle_crisis_response`: the severity-specific static text. -/
def crisis_response (severity : String) : String :=
  if severity = "high" then crisis_response_high
  else if severity = "medium" then crisis_response_medium
  else crisis_response_low

/-- The dict `process_message` returns, by shape: a validation error (carries
`metadata.validation_error = True`), a crisis redirect, or a chat response. -/
inductive BestieResult where
  | error (message : String)
  | crisis (response : String) (severity : String) (matched_patterns : List String)
  | chat (response : String) (topic : Option String)
deriving DecidableEq

/-- `BestieService.process_message` (the `user_id` only flows into metadata and
is omitted).  Validation runs first; an invalid message ends processing before
crisis detection, which in turn precedes any model/fallback work. -/
def process_message (gst : GeminiState) (message : String)
    (history : List (String × String)) (topic : Option String)
    (now : ℤ) (modelOutcome : Except String String) (choice : Nat) :
    BestieResult × GeminiState :=
  match validate_message message with
  | .invalid reason _ => (.error ("Invalid message: " ++ reason), gst)
  | .valid sanitized =>
    let cd := detect_crisis sanitized
    if cd.is_crisis then
      (.crisis (crisis_response cd.severity) cd.severity cd.matched_patterns, gst)
    else
      let r := generate_response gst (buildPrompt sanitized history topic) (7 / 10)
        now modelOutcome choice
      (.chat (clean_bestie_response r.text) topic, r.state)

/-! ### ModerationService (`ai_services.py`)

`json.loads` on the model's reply is a library capability: its outcome is the
parameter `parsed` below.  `.parseFail` is a `json.JSONDecodeError` (caught and
routed to the rule-based fallback); `.nonObject` is a parse that yields a
non-dict, whose `.get` raises and lands in the outer `except`, also routed to
the fallback; `.obj fields` is a parsed JSON object. -/

inductive JsonVal where
  | s (v : String)
  | n (v : ℚ)
deriving DecidableEq

inductive ParsedJson where
  | parseFail
  | nonObject
  | obj (fields : List (String × JsonVal))
deriving DecidableEq

structure ModerationResult where
  decision : JsonVal
  confidence : JsonVal
  reason : JsonVal
  method : String
deriving DecidableEq

def toxic_keywords : List String :=
  ["hate", "kill", "die", "abuse", "fuck", "shit", "bitch", "asshole",
   "suicide", "harm", "violence", "threat", "bomb", "attack"]

/-- `ModerationService._fallback_moderation`. -/
def fallback_moderation (text : String) : ModerationResult :=
  if toxic_keywords.any (fun kw => containsSub (lowerStr text) kw) then
    ⟨.s "block", .n (8 / 10), .s "Contains potentially harmful or inappropriate language",
     "rule_based"⟩
  else
    ⟨.s "allow", .n (8 / 10), .s "No issues detected", "rule_based"⟩

/-- Python `dict.get(k, default)` on the parsed object. -/
def jget (fields : List (String × JsonVal)) (k : String) (dflt : JsonVal) : JsonVal :=
  match fields.find? (fun f => f.1 = k) with
  | some f => f.2
  | none => dflt

/-- `ModerationService.moderate_post`, as a function of the moderated text and
of the outcome of parsing the model's reply. -/
def moderate_post (text : String) (parsed : ParsedJson) : ModerationResult :=
  match parsed with
  | .obj fields =>
    ⟨jget fields "decision" (.s "allow"), jget fields "confidence" (.n (5 / 10)),
     jget fields "reason" (.s "AI moderation analysis"), "gemini"⟩
  | _ => fallback_moderation text

/-! ### Basic lemmas about the text primitives -/

theorem isSubChars_iff (n : List Char) : ∀ h : List Char, isSubChars n h = true ↔ n <:+: h := by
  intro h
  induction h with
  | nil =>
    simp only [isSubChars, List.isEmpty_iff]
    constructor
    · rintro rfl; exact List.infix_rfl
    · intro hinf; exact List.eq_nil_of_infix_nil hinf
  | cons c rest ih =>
    simp only [isSubChars, Bool.or_eq_true, List.isPrefixOf_iff_prefix, ih,
      List.infix_cons_iff]

theorem containsSub_iff (hay needle : String) :
    containsSub hay needle = true ↔ needle.data <:+: hay.data :=
  isSubChars_iff needle.data hay.data

theorem lowerStr_data (s : String) : (lowerStr s).data = s.data.map Char.toLower := rfl

theorem string_data_append (a b : String) : (a ++ b).data = a.data ++ b.data := by
  cases a; cases b; rfl

theorem lowerStr_append (a b : String) :
    (lowerStr (a ++ b)).data = (lowerStr a).data ++ (lowerStr b).data := by
  simp [lowerStr_data, string_data_append]

/-- A substring of a part is a substring of any catenation around it. -/
theorem containsSub_of_mid {mid needle : String} (l r : List Char)
    (h : containsSub mid needle = true) :
    isSubChars needle.data (l ++ mid.data ++ r) = true := by
  rw [isSubChars_iff]
  exact ((containsSub_iff mid needle).mp h).trans (List.infix_append l mid.data r)

/-- Every element of a `joinNL` list is a substring of the join. -/
theorem joinNL_part_infix : ∀ (parts : List String) (x : String), x ∈ parts →
    x.data <:+: (joinNL parts).data := by
  intro parts
  induction parts with
  | nil => intro x hx; cases hx
  | cons a tail ih =>
    intro x hx
    cases tail with
    | nil =>
      rcases List.mem_singleton.mp hx with rfl
      exact List.infix_rfl
    | cons b tl =>
      rcases List.mem_cons.mp hx with rfl | hmem
      · show x.data <:+: (x ++ "\n" ++ joinNL (b :: tl)).data
        rw [string_data_append, string_data_append]
        exact ((x.data.prefix_append _).isInfix).trans
          ((List.prefix_append _ _).isInfix)
      · show x.data <:+: (a ++ "\n" ++ joinNL (b :: tl)).data
        rw [string_data_append]
        exact (ih x hmem).trans ((List.suffix_append _ _).isInfix)

/-! ### Claim theorems -/

/-- Claim C2, counterexample: the first failure after a success (zero prior
consecutive failures) with an error text carrying no retry hint produces a
backoff of 60 seconds, not the claimed ≈30 seconds. -/
theorem c2_cex_first_failure_backoff_is_60s :
    (handle_rate_limit_error (initGemini true 0) 0 "rate limit exceeded").consecutiveFailures = 1
    ∧ (handle_rate_limit_error (initGemini true 0) 0 "rate limit exceeded").backoffUntil = some 60
    ∧ (60 : ℤ) ≠ 0 + 30 := by
  refine ⟨rfl, by decide, by decide⟩

/-- Claim C2 (amended): `_handle_rate_limit_error` increments the consecutive
failure count; when the error text contains "retry_delay" or the literal "30"
the backoff duration is exactly 35 seconds, and otherwise on the k-th
consecutive failure (k = new count) it is `min(2^k * 30, 600)` seconds — in
particular 60 seconds, not 30, on the first failure after a success. -/
theorem c2_backoff_durations (st : GeminiState) (now : ℤ) (err : String) :
    (handle_rate_limit_error st now err).consecutiveFailures = st.consecutiveFailures + 1
    ∧ ((containsSub err "retry_delay" = true ∨ containsSub err "30" = true) →
        (handle_rate_limit_error st now err).backoffUntil = some (now + 35))
    ∧ (containsSub err "retry_delay" = false → containsSub err "30" = false →
        (handle_rate_limit_error st now err).backoffUntil
          = some (now + ((min (2 ^ (st.consecutiveFailures + 1) * 30) 600 : ℕ) : ℤ))) := by
  refine ⟨rfl, fun h => ?_, fun h1 h2 => ?_⟩
  · have hcond : (containsSub err "retry_delay" || containsSub err "30") = true := by
      rcases h with h | h <;> simp [h]
    simp [handle_rate_limit_error, hcond]
  · simp [handle_rate_limit_error, h1, h2]

theorem c2_backoff_durations_witness :
    (handle_rate_limit_error (initGemini true 0) 100 "boom").backoffUntil
      = some (100 + ((min (2 ^ (0 + 1) * 30) 600 : ℕ) : ℤ))
    ∧ (handle_rate_limit_error (initGemini true 0) 100 "retry_delay exceeded").backoffUntil
      = some (100 + 35) :=
  ⟨(c2_backoff_durations (initGemini true 0) 100 "boom").2.2 (by decide) (by decide),
   (c2_backoff_durations (initGemini true 0) 100 "retry_delay exceeded").2.1
     (Or.inl (by decide))⟩

/-- Claim C3, counterexample: a model reply that parses as JSON but is missing
the decision/confidence/reason fields (here the empty object), for a text
containing "kill", does not produce the claimed rule-based block with
confidence 0.8: the code fills the defaults allow / 0.5 with method "gemini". -/
theorem c3_cex_missing_fields_not_rule_based :
    moderate_post "you will kill it" (.obj []) =
      ⟨.s "allow", .n (5 / 10), .s "AI moderation analysis", "gemini"⟩
    ∧ containsSub (lowerStr "you will kill it") "kill" = true
    ∧ JsonVal.s "allow" ≠ JsonVal.s "block"
    ∧ ("gemini" : String) ≠ "rule_based" :=
  ⟨rfl, by decide, by decide, by decide⟩

/-- Claim C3 (amended): on a JSON parse failure (or a parse producing a
non-object) `moderate_post` returns the rule-based decision — block with
confidence 0.8 if the text contains a toxic keyword, else allow with
confidence 0.8; in particular malformed JSON for a text containing "kill"
yields the rule-based block.  But when the reply parses as an object with the
decision/confidence/reason fields missing, the defaults allow / 0.5 /
"AI moderation analysis" are returned with method "gemini", not rule-based. -/
theorem c3_moderation_fallback (text : String) (fields : List (String × JsonVal)) :
    ((∃ kw ∈ toxic_keywords, containsSub (lowerStr text) kw = true) →
      moderate_post text .parseFail =
        ⟨.s "block", .n (8 / 10),
         .s "Contains potentially harmful or inappropriate language", "rule_based"⟩)
    ∧ ((¬ ∃ kw ∈ toxic_keywords, containsSub (lowerStr text) kw = true) →
      moderate_post text .parseFail =
        ⟨.s "allow", .n (8 / 10), .s "No issues detected", "rule_based"⟩)
    ∧ moderate_post text .nonObject = fallback_moderation text
    ∧ (fields.find? (fun f => f.1 = "decision") = none →
       fields.find? (fun f => f.1 = "confidence") = none →
       fields.find? (fun f => f.1 = "reason") = none →
      moderate_post text (.obj fields) =
        ⟨.s "allow", .n (5 / 10), .s "AI moderation analysis", "gemini"⟩) := by
  refine ⟨fun h => ?_, fun h => ?_, rfl, fun h1 h2 h3 => ?_⟩
  · have hc : (toxic_keywords.any fun kw => containsSub (lowerStr text) kw) = true :=
      List.any_eq_true.mpr (by simpa using h)
    simp [moderate_post, fallback_moderation, hc]
  · have hc : (toxic_keywords.any fun kw => containsSub (lowerStr text) kw) = false := by
      simp only [List.any_eq_false]
      intro kw hkw
      simp only [not_exists, not_and] at h
      simpa using h kw hkw
    simp [moderate_post, fallback_moderation, hc]
  · simp [moderate_post, jget, h1, h2, h3]

theorem c3_moderation_fallback_witness :
    moderate_post "they threatened to kill him" .parseFail =
      ⟨.s "block", .n (8 / 10),
       .s "Contains potentially harmful or inappropriate language", "rule_based"⟩
    ∧ moderate_post "lovely weather today" .parseFail =
      ⟨.s "allow", .n (8 / 10), .s "No issues detected", "rule_based"⟩
    ∧ moderate_post "they threatened to kill him" (.obj [("other", .n 1)]) =
      ⟨.s "allow", .n (5 / 10), .s "AI moderation analysis", "gemini"⟩ :=
  ⟨(c3_moderation_fallback "they threatened to kill him" []).1 ⟨"kill", by decide, by decide⟩,
   (c3_moderation_fallback "lovely weather today" []).2.1 (by decide),
   (c3_moderation_fallback "they threatened to kill him" [("other", .n 1)]).2.2.2
     (by decide) (by decide) (by decide)⟩

/-- Claim C7: `detect_crisis` tiers severity by keyword membership under
case-insensitive substring matching — any high keyword present gives severity
"high", else any medium keyword gives "medium", else any configured-keyword
match gives "low" — and reports all matched configured keywords; with the
three example messages behaving as claimed. -/
theorem c7_detect_crisis_tiers :
    (∀ msg : String,
      ((∃ kw ∈ high_severity_keywords, containsSub (lowerStr msg) kw = true) →
        (detect_crisis msg).is_crisis = true ∧ (detect_crisis msg).severity = "high")
      ∧ ((¬ ∃ kw ∈ high_severity_keywords, containsSub (lowerStr msg) kw = true) →
         (∃ kw ∈ medium_severity_keywords, containsSub (lowerStr msg) kw = true) →
        (detect_crisis msg).is_crisis = true ∧ (detect_crisis msg).severity = "medium")
      ∧ ((¬ ∃ kw ∈ high_severity_keywords, containsSub (lowerStr msg) kw = true) →
         (¬ ∃ kw ∈ medium_severity_keywords, containsSub (lowerStr msg) kw = true) →
         (∃ kw ∈ crisis_keywords_list, containsSub (lowerStr msg) (lowerStr kw) = true) →
        (detect_crisis msg).is_crisis = true ∧ (detect_crisis msg).severity = "low")
      ∧ (detect_crisis msg).matched_patterns
          = crisis_keywords_list.filter (fun kw => containsSub (lowerStr msg) (lowerStr kw)))
    ∧ detect_crisis "I want to kill myself" = ⟨true, "high", ["kill myself"]⟩
    ∧ detect_crisis "sometimes I feel like I'm not worth living"
        = ⟨true, "medium", ["not worth living"]⟩
    ∧ detect_crisis "I'm a bit sad today" = ⟨false, "none", []⟩ := by
  refine ⟨fun msg => ?_, by decide, by decide, by decide⟩
  have hh : ∀ kw ∈ high_severity_keywords, kw ∈ crisis_keywords_list ∧ lowerStr kw = kw := by
    decide
  have hm : ∀ kw ∈ medium_severity_keywords, kw ∈ crisis_keywords_list ∧ lowerStr kw = kw := by
    decide
  refine ⟨?_, ?_, ?_, ?_⟩
  · rintro ⟨kw, hkm, hkc⟩
    have hprop := hh kw hkm
    have hfil : kw ∈ crisis_keywords_list.filter
        (fun k => containsSub (lowerStr msg) (lowerStr k)) :=
      List.mem_filter.mpr ⟨hprop.1, by rw [hprop.2]; exact hkc⟩
    have hne : (crisis_keywords_list.filter
        (fun k => containsSub (lowerStr msg) (lowerStr k))).isEmpty = false := by
      rw [Bool.eq_false_iff]
      intro hE
      exact List.ne_nil_of_mem hfil (List.isEmpty_iff.mp hE)
    have hany : (high_severity_keywords.any fun k => containsSub (lowerStr msg) k) = true :=
      List.any_eq_true.mpr ⟨kw, hkm, hkc⟩
    simp [detect_crisis, hne, hany]
  · intro hno
    rintro ⟨kw, hkm, hkc⟩
    have hprop := hm kw hkm
    have hfil : kw ∈ crisis_keywords_list.filter
        (fun k => containsSub (lowerStr msg) (lowerStr k)) :=
      List.mem_filter.mpr ⟨hprop.1, by rw [hprop.2]; exact hkc⟩
    have hne : (crisis_keywords_list.filter
        (fun k => containsSub (lowerStr msg) (lowerStr k))).isEmpty = false := by
      rw [Bool.eq_false_iff]
      intro hE
      exact List.ne_nil_of_mem hfil (List.isEmpty_iff.mp hE)
    have hanyh : (high_severity_keywords.any fun k => containsSub (lowerStr msg) k) = false := by
      simp only [List.any_eq_false]
      intro k hk
      simp only [not_exists, not_and] at hno
      simpa using hno k hk
    have hanym : (medium_severity_keywords.any fun k => containsSub (lowerStr msg) k) = true :=
      List.any_eq_true.mpr ⟨kw, hkm, hkc⟩
    simp [detect_crisis, hne, hanyh, hanym]
  · intro hnoh hnom
    rintro ⟨kw, hkm, hkc⟩
    have hfil : kw ∈ crisis_keywords_list.filter
        (fun k => containsSub (lowerStr msg) (lowerStr k)) :=
      List.mem_filter.mpr ⟨hkm, hkc⟩
    have hne : (crisis_keywords_list.filter
        (fun k => containsSub (lowerStr msg) (lowerStr k))).isEmpty = false := by
      rw [Bool.eq_false_iff]
      intro hE
      exact List.ne_nil_of_mem hfil (List.isEmpty_iff.mp hE)
    have hanyh : (high_severity_keywords.any fun k => containsSub (lowerStr msg) k) = false := by
      simp only [List.any_eq_false]
      intro k hk
      simp only [not_exists, not_and] at hnoh
      simpa using hnoh k hk
    have hanym : (medium_severity_keywords.any fun k => containsSub (lowerStr msg) k) = false := by
      simp only [List.any_eq_false]
      intro k hk
      simp only [not_exists, not_and] at hnom
      simpa using hnom k hk
    simp [detect_crisis, hne, hanyh, hanym]
  · by_cases hE : (crisis_keywords_list.filter
        (fun k => containsSub (lowerStr msg) (lowerStr k))).isEmpty = true
    · have h0 : crisis_keywords_list.filter
          (fun k => containsSub (lowerStr msg) (lowerStr k)) = [] :=
        List.isEmpty_iff.mp hE
      simp [detect_crisis, hE, h0]
    · have hne : (crisis_keywords_list.filter
          (fun k => containsSub (lowerStr msg) (lowerStr k))).isEmpty = false := by
        cases hb : (crisis_keywords_list.filter
            (fun k => containsSub (lowerStr msg) (lowerStr k))).isEmpty
        · rfl
        · exact absurd hb hE
      simp [detect_crisis, hne]

theorem c7_detect_crisis_tiers_witness :
    (detect_crisis "there was self harm involved").is_crisis = true
    ∧ (detect_crisis "there was self harm involved").severity = "high" :=
  (c7_detect_crisis_tiers.1 "there was self harm involved").1
    ⟨"self harm", by decide, by decide⟩

/-- Claim C1: `generate_response` is total (the embedding returns a text for
every input), and when the model call fails — for any error text, any state —
the failure is absorbed: the answer is either the deterministic fallback
response or a previously cached text, never a surfaced error. -/
theorem c1_respond_absorbs_model_failures (st : GeminiState) (p : String) (T : ℚ)
    (now : ℤ) (err : String) (choice : Nat) :
    (generate_response st p T now (.error err) choice).text
        = generate_fallback_response p choice
    ∨ (∃ e : CacheEntry, findEntry (p, T) st.responseCache = some e
        ∧ (generate_response st p T now (.error err) choice).text = e.response) := by
  by_cases hm : st.modelConfigured = false
  · left; simp [generate_response, hm]
  · rcases hf : findEntry (p, T) st.responseCache with _ | e
    · have hcr : get_cached_response st (p, T) now = (none, st) := by
        simp [get_cached_response, hf]
      left
      unfold generate_response
      rw [if_neg hm]
      simp only [hcr]
      split
      · rename_i h; exact absurd rfl h
      · split
        · rfl
        · split
          · rfl
          · rfl
    · by_cases hexp : cache_ttl < now - e.timestamp
      · have hcr : get_cached_response st (p, T) now
            = (none, { st with responseCache := eraseEntry (p, T) st.responseCache }) := by
          simp [get_cached_response, hf, hexp]
        left
        unfold generate_response
        rw [if_neg hm]
        simp only [hcr]
        split
        · rename_i h; exact absurd rfl h
        · split
          · rfl
          · split
            · rfl
            · rfl
      · have hcr : get_cached_response st (p, T) now = (some e.response, st) := by
          simp [get_cached_response, hf, hexp]
        by_cases hre : e.response = ""
        · left
          unfold generate_response
          rw [if_neg hm]
          simp only [hcr]
          split
          · rename_i h; rw [hre] at h; exact absurd rfl h
          · split
            · rfl
            · split
              · rfl
              · rfl
        · right
          refine ⟨e, rfl, ?_⟩
          unfold generate_response
          rw [if_neg hm]
          simp only [hcr]
          split
          · rfl
          · rename_i h
            exact absurd (show e.response = "" by simpa using h) hre

/-! ### Daily-quota invariant (Claim C9) -/

theorem get_cached_preserves_daily (st : GeminiState) (k : CacheKey) (now : ℤ) :
    (get_cached_response st k now).2.dailyTokenCount = st.dailyTokenCount := by
  unfold get_cached_response
  rcases findEntry k st.responseCache with _ | e
  · rfl
  · dsimp only
    split <;> rfl

theorem check_rate_daily_cases (st : GeminiState) (now : ℤ) :
    (check_rate_limit st now).2.dailyTokenCount = st.dailyTokenCount
    ∨ (check_rate_limit st now).2.dailyTokenCount = 0 := by
  unfold check_rate_limit
  dsimp only
  split <;> split <;> first | (split <;> simp) | simp

theorem gen_daily_lt (st : GeminiState) (p : String) (T : ℚ) (now : ℤ)
    (orc : Except String String) (c : Nat)
    (h : st.dailyTokenCount < max_tokens_per_day) :
    (generate_response st p T now orc c).state.dailyTokenCount < max_tokens_per_day := by
  have hzero : (0 : Nat) < max_tokens_per_day := by decide
  have hcr := get_cached_preserves_daily st (p, T) now
  have hrl := check_rate_daily_cases (get_cached_response st (p, T) now).2 now
  rw [hcr] at hrl
  cases orc with
  | ok text =>
    unfold generate_response
    split
    · exact h
    · dsimp only
      split_ifs with h1 h2 h3
      · dsimp only; rw [hcr]; exact h
      · dsimp only
        rcases hrl with h4 | h4 <;> rw [h4]
        · exact h
        · exact hzero
      · dsimp only
        rcases hrl with h4 | h4 <;> rw [h4]
        · exact h
        · exact hzero
      · dsimp only [cache_response]
        exact not_le.mp h3
  | error err =>
    unfold generate_response
    split
    · exact h
    · dsimp only
      split_ifs with h1 h2 h3 h4
      · dsimp only; rw [hcr]; exact h
      · dsimp only
        rcases hrl with h5 | h5 <;> rw [h5]
        · exact h
        · exact hzero
      · dsimp only
        rcases hrl with h5 | h5 <;> rw [h5]
        · exact h
        · exact hzero
      · dsimp only [handle_rate_limit_error]
        rcases hrl with h5 | h5 <;> rw [h5]
        · exact h
        · exact hzero
      · dsimp only
        rcases hrl with h5 | h5 <;> rw [h5]
        · exact h
        · exact hzero

theorem status_preserves_daily (st : GeminiState) (now : ℤ) :
    (get_api_status st now).2.dailyTokenCount = st.dailyTokenCount := rfl

theorem run_daily_lt (evs : List GEvent) : ∀ st : GeminiState,
    st.dailyTokenCount < max_tokens_per_day →
    (runGateway st evs).1.dailyTokenCount < max_tokens_per_day := by
  induction evs with
  | nil => intro st h; exact h
  | cons ev rest ih =>
    intro st h
    cases ev with
    | gen now p T orc c =>
      simpa [runGateway] using ih _ (gen_daily_lt st p T now orc c h)
    | status now =>
      simpa [runGateway] using ih _ (by rw [status_preserves_daily]; exact h)

/-- Claim C9: in every reachable gateway state the daily token count is
strictly below the 50000 limit (spending is guarded by
`daily + estimate < limit` and the counter otherwise only resets to 0), so the
`quota_exhausted` field of `get_api_status`, computed as
`daily_token_count >= 50000`, is false in every reachable state. -/
theorem c9_quota_never_exhausted (configured : Bool) (day0 : ℤ) (evs : List GEvent)
    (now : ℤ) :
    (runGateway (initGemini configured day0) evs).1.dailyTokenCount < max_tokens_per_day
    ∧ ((get_api_status (runGateway (initGemini configured day0) evs).1 now).1).quota_exhausted
        = false := by
  have h := run_daily_lt evs (initGemini configured day0)
    (show (0 : Nat) < max_tokens_per_day by decide)
  refine ⟨h, ?_⟩
  simp only [get_api_status]
  exact decide_eq_false (not_le_of_lt h)

/-- Claim C10: a message whose stripped length exceeds the 2000-character
maximum makes `process_message` return the validation error (the dict of type
"error" carrying the validation_error flag) with the gateway state untouched:
no crisis detection result, no crisis redirect, and no model or fallback
response is produced, whatever the message contains. -/
theorem c10_oversized_message_short_circuits (gst : GeminiState) (message : String)
    (history : List (String × String)) (topic : Option String) (now : ℤ)
    (orc : Except String String) (choice : Nat)
    (hlen : MAX_MESSAGE_LENGTH < (pyStrip message).length) :
    process_message gst message history topic now orc choice
      = (.error "Invalid message: Message too long (max 2000 characters)", gst) := by
  have hne : ¬(message = "" ∨ (pyStrip message).length = 0) := by
    rintro (rfl | h0)
    · exact absurd hlen (by decide)
    · omega
  have hval : validate_message message
      = .invalid "Message too long (max 2000 characters)"
          (String.mk ((pyStrip message).data.take MAX_MESSAGE_LENGTH)) := by
    unfold validate_message
    rw [if_neg hne, if_pos hlen]
    have : ("Message too long (max " ++ toString MAX_MESSAGE_LENGTH ++ " characters)")
        = "Message too long (max 2000 characters)" := by decide
    rw [this]
  unfold process_message
  rw [hval]
  dsimp only
  have happ : ("Invalid message: " ++ "Message too long (max 2000 characters)")
      = "Invalid message: Message too long (max 2000 characters)" := by decide
  rw [happ]

def longCrisisMsg : String := String.mk ("suicide".data ++ List.replicate 1994 'a')

theorem dropWhile_cons_false (p : Char → Bool) (c : Char) (h : p c = false) (l : List Char) :
    List.dropWhile p (c :: l) = c :: l := by
  simp [List.dropWhile_cons, h]

theorem longCrisisMsg_striplen : (pyStrip longCrisisMsg).length = 2001 := by
  have hstep : stripChars ("suicide".data ++ List.replicate 1994 'a')
      = "suicide".data ++ List.replicate 1994 'a' := by
    unfold stripChars
    rw [show ("suicide".data ++ List.replicate 1994 'a')
        = 's' :: ("uicide".data ++ List.replicate 1994 'a') from rfl]
    rw [dropWhile_cons_false Char.isWhitespace 's' (by decide)]
    rw [show ('s' :: ("uicide".data ++ List.replicate 1994 'a'))
        = ("suicide".data ++ List.replicate 1994 'a') from rfl]
    rw [List.reverse_append, List.reverse_replicate]
    rw [show (1994 : Nat) = 1993 + 1 from rfl, List.replicate_succ, List.cons_append]
    rw [dropWhile_cons_false Char.isWhitespace 'a' (by decide)]
    rw [← List.cons_append, ← List.replicate_succ, show (1993 + 1 : Nat) = 1994 from rfl]
    rw [← List.reverse_replicate 1994 'a', ← List.reverse_append, List.reverse_reverse]
    rw [List.reverse_replicate]
  show (stripChars longCrisisMsg.data).length = 2001
  rw [show longCrisisMsg.data = "suicide".data ++ List.replicate 1994 'a' from rfl, hstep]
  rw [List.length_append, List.length_replicate]
  decide

theorem c10_oversized_message_short_circuits_witness :
    process_message (initGemini false 0) longCrisisMsg [] none 0 (.ok "x") 0
      = (.error "Invalid message: Message too long (max 2000 characters)", initGemini false 0) :=
  c10_oversized_message_short_circuits (initGemini false 0) longCrisisMsg [] none 0
    (.ok "x") 0 (by rw [show (pyStrip longCrisisMsg).length = 2001 from longCrisisMsg_striplen]; decide)

/-! ### Cache lemmas (Claim C6) -/

theorem insertEntry_length_le (k : CacheKey) (r : String) (ts : ℤ) (l : List CacheEntry) :
    (insertEntry k r ts l).length ≤ l.length + 1 := by
  induction l with
  | nil => simp [insertEntry]
  | cons e rest ih =>
    unfold insertEntry
    split
    · simp
    · simpa using Nat.succ_le_succ ih

theorem eraseEntry_length_le (k : CacheKey) (l : List CacheEntry) :
    (eraseEntry k l).length ≤ l.length := by
  induction l with
  | nil => simp [eraseEntry]
  | cons e rest ih =>
    unfold eraseEntry
    split
    · simp
    · simpa using Nat.succ_le_succ ih

theorem eraseEntry_length_of_key_mem (k : CacheKey) (l : List CacheEntry)
    (h : ∃ e ∈ l, e.key = k) : (eraseEntry k l).length + 1 = l.length := by
  induction l with
  | nil => rcases h with ⟨e, he, _⟩; cases he
  | cons e rest ih =>
    unfold eraseEntry
    split
    · rfl
    · rename_i hne
      rcases h with ⟨e', he', hk⟩
      rcases List.mem_cons.mp he' with rfl | hmem
      · exact absurd hk hne
      · simpa using congrArg Nat.succ (ih ⟨e', hmem, hk⟩)

theorem oldestFrom_mem (best : CacheEntry) (l : List CacheEntry) :
    oldestFrom best l ∈ best :: l := by
  induction l generalizing best with
  | nil => simp [oldestFrom]
  | cons e rest ih =>
    unfold oldestFrom
    split
    · rcases List.mem_cons.mp (ih e) with h | h
      · exact List.mem_cons.mpr (Or.inr (List.mem_cons.mpr (Or.inl h)))
      · exact List.mem_cons.mpr (Or.inr (List.mem_cons.mpr (Or.inr h)))
    · rcases List.mem_cons.mp (ih best) with h | h
      · exact List.mem_cons.mpr (Or.inl h)
      · exact List.mem_cons.mpr (Or.inr (List.mem_cons.mpr (Or.inr h)))

theorem oldestFrom_min (best : CacheEntry) (l : List CacheEntry) :
    (oldestFrom best l).timestamp ≤ best.timestamp
    ∧ ∀ e ∈ l, (oldestFrom best l).timestamp ≤ e.timestamp := by
  induction l generalizing best with
  | nil => exact ⟨le_refl _, by simp⟩
  | cons e rest ih =>
    unfold oldestFrom
    split
    · rename_i hlt
      have h := ih e
      refine ⟨le_trans h.1 (le_of_lt hlt), ?_⟩
      intro e' he'
      rcases List.mem_cons.mp he' with rfl | hmem
      · exact h.1
      · exact h.2 e' hmem
    · rename_i hge
      have h := ih best
      refine ⟨h.1, ?_⟩
      intro e' he'
      rcases List.mem_cons.mp he' with rfl | hmem
      · exact le_trans h.1 (le_of_not_lt hge)
      · exact h.2 e' hmem

theorem oldestEntry_mem (l : List CacheEntry) (e : CacheEntry)
    (h : oldestEntry l = some e) : e ∈ l := by
  cases l with
  | nil => cases h
  | cons b rest =>
    have := oldestFrom_mem b rest
    simp only [oldestEntry, Option.some.injEq] at h
    rwa [h] at this

theorem putCache_length_le (k : CacheKey) (r : String) (now : ℤ) (l : List CacheEntry)
    (h : l.length ≤ 100) : (putCache k r now l).length ≤ 100 := by
  unfold putCache
  dsimp only
  split
  · rename_i hgt
    rcases ho : oldestEntry (insertEntry k r now l) with _ | e
    · exfalso
      cases hic : insertEntry k r now l with
      | nil => rw [hic] at hgt; simp at hgt
      | cons b rest2 => rw [hic] at ho; exact absurd ho (by simp [oldestEntry])
    · have hmem := oldestEntry_mem _ _ ho
      have hlen2 := eraseEntry_length_of_key_mem e.key (insertEntry k r now l)
        ⟨e, hmem, rfl⟩
      have hle := insertEntry_length_le k r now l
      show (eraseEntry e.key (insertEntry k r now l)).length ≤ 100
      omega
  · rename_i hle
    omega

theorem get_cached_cache_cases (st : GeminiState) (k : CacheKey) (now : ℤ) :
    (get_cached_response st k now).2.responseCache = st.responseCache
    ∨ (get_cached_response st k now).2.responseCache = eraseEntry k st.responseCache := by
  unfold get_cached_response
  rcases findEntry k st.responseCache with _ | e
  · left; rfl
  · dsimp only
    split
    · right; rfl
    · left; rfl

theorem check_rate_preserves_cache (st : GeminiState) (now : ℤ) :
    (check_rate_limit st now).2.responseCache = st.responseCache := by
  unfold check_rate_limit
  dsimp only
  split <;> split <;> first | rfl | (split <;> rfl)

theorem gen_cache_le (st : GeminiState) (p : String) (T : ℚ) (now : ℤ)
    (orc : Except String String) (c : Nat)
    (h : st.responseCache.length ≤ 100) :
    (generate_response st p T now orc c).state.responseCache.length ≤ 100 := by
  have hcc : (get_cached_response st (p, T) now).2.responseCache.length ≤ 100 := by
    rcases get_cached_cache_cases st (p, T) now with h2 | h2 <;> rw [h2]
    · exact h
    · exact le_trans (eraseEntry_length_le _ _) h
  have hrc := check_rate_preserves_cache (get_cached_response st (p, T) now).2 now
  cases orc with
  | ok text =>
    unfold generate_response
    split
    · exact h
    · dsimp only
      split_ifs with h1 h2 h3
      · exact hcc
      · dsimp only; rw [hrc]; exact hcc
      · dsimp only; rw [hrc]; exact hcc
      · dsimp only [cache_response]
        refine putCache_length_le _ _ _ _ ?_
        rw [hrc]; exact hcc
  | error err =>
    unfold generate_response
    split
    · exact h
    · dsimp only
      split_ifs with h1 h2 h3 h4
      · exact hcc
      · dsimp only; rw [hrc]; exact hcc
      · dsimp only; rw [hrc]; exact hcc
      · dsimp only [handle_rate_limit_error]; rw [hrc]; exact hcc
      · dsimp only; rw [hrc]; exact hcc

theorem run_cache_le (evs : List GEvent) : ∀ st : GeminiState,
    st.responseCache.length ≤ 100 →
    (runGateway st evs).1.responseCache.length ≤ 100 := by
  induction evs with
  | nil => intro st h; exact h
  | cons ev rest ih =>
    intro st h
    cases ev with
    | gen now p T orc c =>
      simpa [runGateway] using ih _ (gen_cache_le st p T now orc c h)
    | status now =>
      simpa [runGateway] using
        ih _ (show (get_api_status st now).2.responseCache.length ≤ 100 from h)

theorem insertEntry_fresh (k : CacheKey) (r : String) (ts : ℤ) (l : List CacheEntry)
    (h : ∀ e ∈ l, e.key ≠ k) : insertEntry k r ts l = l ++ [⟨k, r, ts⟩] := by
  induction l with
  | nil => rfl
  | cons e rest ih =>
    unfold insertEntry
    rw [if_neg (h e (List.mem_cons_self e rest))]
    rw [ih (fun e' he' => h e' (List.mem_cons_of_mem e he'))]
    simp

theorem oldestFrom_append_single (best z : CacheEntry) (l : List CacheEntry) :
    oldestFrom best (l ++ [z])
      = if z.timestamp < (oldestFrom best l).timestamp then z else oldestFrom best l := by
  induction l generalizing best with
  | nil => rfl
  | cons e rest ih =>
    show oldestFrom best (e :: (rest ++ [z]))
      = if z.timestamp < (oldestFrom best (e :: rest)).timestamp then z
        else oldestFrom best (e :: rest)
    unfold oldestFrom
    split
    · exact ih e
    · exact ih best

theorem eraseEntry_append_no_key (k : CacheKey) (l1 l : List CacheEntry)
    (h : ∀ e ∈ l1, e.key ≠ k) : eraseEntry k (l1 ++ l) = l1 ++ eraseEntry k l := by
  induction l1 with
  | nil => rfl
  | cons e rest ih =>
    rw [List.cons_append]
    show (if e.key = k then rest ++ l else e :: eraseEntry k (rest ++ l))
      = e :: rest ++ eraseEntry k l
    rw [if_neg (h e (List.mem_cons_self e rest))]
    rw [ih (fun e' he' => h e' (List.mem_cons_of_mem e he'))]
    rw [List.cons_append]

/-- Claim C6: (a) in every reachable gateway state the response cache holds at
most 100 entries; (b) inserting a 101st distinct key into a cache of 100
entries with distinct keys and creation times not in the future evicts exactly
the (first) entry with the smallest creation timestamp — the final cache is
the old cache with that entry removed plus the fresh entry, and has exactly
100 entries again.  Eviction is by creation age, never by last access (the
model records no access times at all). -/
theorem c6_cache_capacity_and_age_eviction :
    (∀ (configured : Bool) (day0 : ℤ) (evs : List GEvent),
      (runGateway (initGemini configured day0) evs).1.responseCache.length ≤ 100)
    ∧ (∀ (cache : List CacheEntry) (k : CacheKey) (r : String) (now : ℤ),
      cache.length = 100 →
      (∀ e ∈ cache, e.key ≠ k) →
      (∀ e ∈ cache, e.timestamp ≤ now) →
      List.Pairwise (fun a b => a.key ≠ b.key) cache →
      ∃ e0 l1 l2, cache = l1 ++ e0 :: l2
        ∧ (∀ e ∈ cache, e0.timestamp ≤ e.timestamp)
        ∧ putCache k r now cache = l1 ++ l2 ++ [⟨k, r, now⟩]
        ∧ (putCache k r now cache).length = 100) := by
  constructor
  · intro configured day0 evs
    exact run_cache_le evs (initGemini configured day0) (by simp [initGemini])
  · intro cache k r now hlen hfresh hts hnd
    have hins : insertEntry k r now cache = cache ++ [⟨k, r, now⟩] :=
      insertEntry_fresh k r now cache hfresh
    cases cache with
    | nil => simp at hlen
    | cons b rest =>
      have hmin := oldestFrom_min b rest
      have hmem := oldestFrom_mem b rest
      set m := oldestFrom b rest with hm
      have hmnotnew : ¬((⟨k, r, now⟩ : CacheEntry).timestamp < m.timestamp) := by
        have hmn : m.timestamp ≤ now := by
          rcases List.mem_cons.mp hmem with h | h
          · exact h ▸ hts b (List.mem_cons_self b rest)
          · exact hts m (List.mem_cons_of_mem b h)
        show ¬(now < m.timestamp)
        exact not_lt.mpr hmn
      have hold : oldestEntry (insertEntry k r now (b :: rest)) = some m := by
        rw [hins]
        show oldestEntry (b :: (rest ++ [⟨k, r, now⟩])) = some m
        simp only [oldestEntry, Option.some.injEq]
        rw [oldestFrom_append_single, if_neg hmnotnew]
      rcases List.append_of_mem hmem with ⟨l1, l2, hdec⟩
      have hl1k : ∀ e ∈ l1, e.key ≠ m.key := by
        intro e he
        have := (List.pairwise_append.mp (hdec ▸ hnd)).2.2
        exact this e he m (List.mem_cons_self m l2)
      have hminall : ∀ e ∈ b :: rest, m.timestamp ≤ e.timestamp := by
        intro e he
        rcases List.mem_cons.mp he with rfl | h
        · exact hmin.1
        · exact hmin.2 e h
      have herase : eraseEntry m.key (insertEntry k r now (b :: rest))
          = l1 ++ l2 ++ [⟨k, r, now⟩] := by
        rw [hins, hdec]
        rw [show (l1 ++ m :: l2) ++ [(⟨k, r, now⟩ : CacheEntry)]
            = l1 ++ (m :: (l2 ++ [⟨k, r, now⟩])) by simp]
        rw [eraseEntry_append_no_key m.key l1 _ hl1k]
        show l1 ++ (if m.key = m.key then l2 ++ [(⟨k, r, now⟩ : CacheEntry)] else _)
          = l1 ++ l2 ++ [⟨k, r, now⟩]
        rw [if_pos rfl, List.append_assoc]
      have hput : putCache k r now (b :: rest) = l1 ++ l2 ++ [⟨k, r, now⟩] := by
        unfold putCache
        dsimp only
        rw [hold]
        rw [if_pos (show 100 < (insertEntry k r now (b :: rest)).length by
          rw [hins]; simp at hlen ⊢; omega)]
        exact herase
      refine ⟨m, l1, l2, hdec, hminall, hput, ?_⟩
      rw [hput]
      have : (l1 ++ m :: l2).length = 100 := by rw [← hdec]; exact hlen
      simp at this ⊢
      omega

def bigCacheC6 : List CacheEntry :=
  (List.range 100).map (fun (i : ℕ) => ⟨("k", (i : ℚ)), "r", (i : ℤ)⟩)

theorem c6_cache_capacity_and_age_eviction_witness :
    ∃ e0 l1 l2, bigCacheC6 = l1 ++ e0 :: l2
      ∧ (∀ e ∈ bigCacheC6, e0.timestamp ≤ e.timestamp)
      ∧ putCache ("fresh", 1) "new" 300 bigCacheC6 = l1 ++ l2 ++ [⟨("fresh", 1), "new", 300⟩]
      ∧ (putCache ("fresh", 1) "new" 300 bigCacheC6).length = 100 := by
  refine c6_cache_capacity_and_age_eviction.2 bigCacheC6 ("fresh", 1) "new" 300 ?_ ?_ ?_ ?_
  · simp only [bigCacheC6, List.length_map, List.length_range]
  · intro e he
    simp only [bigCacheC6, List.mem_map, List.mem_range] at he
    rcases he with ⟨i, hi, rfl⟩
    simp
  · intro e he
    simp only [bigCacheC6, List.mem_map, List.mem_range] at he
    rcases he with ⟨i, hi, rfl⟩
    show (i : ℤ) ≤ 300
    omega
  · simp only [bigCacheC6]
    refine (List.pairwise_map).mpr ?_
    refine List.Pairwise.imp ?_ (List.pairwise_lt_range 100)
    intro a b hab
    simp only [ne_eq, Prod.mk.injEq]
    rintro ⟨-, hq⟩
    exact absurd (Nat.cast_injective hq) (Nat.ne_of_lt hab)

/-! ### Rate-limiter sliding window (Claim C4) -/

/-- Membership in the trailing 60-second window `(t-60, t]`. -/
def inWin (t s : ℤ) : Bool := decide (t - 60 < s) && decide (s ≤ t)

theorem get_cached_preserves_ts (st : GeminiState) (k : CacheKey) (now : ℤ) :
    (get_cached_response st k now).2.requestTimestamps = st.requestTimestamps := by
  unfold get_cached_response
  rcases findEntry k st.responseCache with _ | e
  · rfl
  · dsimp only
    split <;> rfl

theorem check_rate_ts_cases (st : GeminiState) (now : ℤ) :
    ((check_rate_limit st now).1 = true →
      (check_rate_limit st now).2.requestTimestamps = purgeOld now st.requestTimestamps
      ∧ (purgeOld now st.requestTimestamps).length < requests_per_minute)
    ∧ ((check_rate_limit st now).1 = false →
      (check_rate_limit st now).2.requestTimestamps = st.requestTimestamps
      ∨ (check_rate_limit st now).2.requestTimestamps = purgeOld now st.requestTimestamps) := by
  unfold check_rate_limit
  dsimp only
  split
  · constructor
    · split
      · intro h; cases h
      · split
        · intro h; cases h
        · intro h
          refine ⟨rfl, ?_⟩
          rename_i hle
          exact lt_of_not_ge hle
    · split
      · intro h; left; rfl
      · split
        · intro h; right; rfl
        · intro h; cases h
  · constructor
    · split
      · intro h; cases h
      · split
        · intro h; cases h
        · intro h
          refine ⟨rfl, ?_⟩
          rename_i hle
          exact lt_of_not_ge hle
    · split
      · intro h; left; rfl
      · split
        · intro h; right; rfl
        · intro h; cases h

theorem gen_rate_shape (st : GeminiState) (p : String) (T : ℚ) (now : ℤ)
    (orc : Except String String) (c : Nat) :
    ((generate_response st p T now orc c).admitted = true →
      (generate_response st p T now orc c).state.requestTimestamps
          = purgeOld now st.requestTimestamps ++ [now]
      ∧ (purgeOld now st.requestTimestamps).length < requests_per_minute)
    ∧ ((generate_response st p T now orc c).admitted = false →
      (generate_response st p T now orc c).state.requestTimestamps = st.requestTimestamps
      ∨ (generate_response st p T now orc c).state.requestTimestamps
          = purgeOld now st.requestTimestamps) := by
  have hct := get_cached_preserves_ts st (p, T) now
  have hcrt := check_rate_ts_cases (get_cached_response st (p, T) now).2 now
  rw [hct] at hcrt
  cases orc with
  | ok text =>
    unfold generate_response
    split
    · exact ⟨(fun h => nomatch h), (fun _ => Or.inl rfl)⟩
    · dsimp only
      split_ifs with h1 h2 h3
      · exact ⟨(fun h => nomatch h), (fun _ => Or.inl hct)⟩
      · exact ⟨(fun h => nomatch h), (fun _ => hcrt.2 h2)⟩
      · have hrt : (check_rate_limit (get_cached_response st (p, T) now).2 now).1 = true := by
          revert h2; cases (check_rate_limit (get_cached_response st (p, T) now).2 now).1 <;>
            simp
        refine ⟨fun _ => ?_, (fun h => nomatch h)⟩
        dsimp only
        rw [(hcrt.1 hrt).1]
        exact ⟨rfl, (hcrt.1 hrt).2⟩
      · have hrt : (check_rate_limit (get_cached_response st (p, T) now).2 now).1 = true := by
          revert h2; cases (check_rate_limit (get_cached_response st (p, T) now).2 now).1 <;>
            simp
        refine ⟨fun _ => ?_, (fun h => nomatch h)⟩
        dsimp only [cache_response]
        rw [(hcrt.1 hrt).1]
        exact ⟨rfl, (hcrt.1 hrt).2⟩
  | error err =>
    unfold generate_response
    split
    · exact ⟨(fun h => nomatch h), (fun _ => Or.inl rfl)⟩
    · dsimp only
      split_ifs with h1 h2 h3 h4
      · exact ⟨(fun h => nomatch h), (fun _ => Or.inl hct)⟩
      · exact ⟨(fun h => nomatch h), (fun _ => hcrt.2 h2)⟩
      · have hrt : (check_rate_limit (get_cached_response st (p, T) now).2 now).1 = true := by
          revert h2; cases (check_rate_limit (get_cached_response st (p, T) now).2 now).1 <;>
            simp
        refine ⟨fun _ => ?_, (fun h => nomatch h)⟩
        dsimp only
        rw [(hcrt.1 hrt).1]
        exact ⟨rfl, (hcrt.1 hrt).2⟩
      · have hrt : (check_rate_limit (get_cached_response st (p, T) now).2 now).1 = true := by
          revert h2; cases (check_rate_limit (get_cached_response st (p, T) now).2 now).1 <;>
            simp
        refine ⟨fun _ => ?_, (fun h => nomatch h)⟩
        dsimp only [handle_rate_limit_error]
        rw [(hcrt.1 hrt).1]
        exact ⟨rfl, (hcrt.1 hrt).2⟩
      · have hrt : (check_rate_limit (get_cached_response st (p, T) now).2 now).1 = true := by
          revert h2; cases (check_rate_limit (get_cached_response st (p, T) now).2 now).1 <;>
            simp
        refine ⟨fun _ => ?_, (fun h => nomatch h)⟩
        dsimp only
        rw [(hcrt.1 hrt).1]
        exact ⟨rfl, (hcrt.1 hrt).2⟩

theorem adm_times_subset (evs : List GEvent) : ∀ (st : GeminiState),
    ∀ x ∈ (runGateway st evs).2, ∃ ev ∈ evs, GEvent.time ev = x := by
  induction evs with
  | nil => intro st x hx; cases hx
  | cons ev rest ih =>
    intro st x hx
    cases ev with
    | gen now p T orc c =>
      simp only [runGateway] at hx
      by_cases hadm : (generate_response st p T now orc c).admitted
      · rw [if_pos hadm] at hx
        rcases List.mem_cons.mp hx with rfl | hmem
        · exact ⟨.gen x p T orc c, List.mem_cons_self _ _, rfl⟩
        · rcases ih _ x hmem with ⟨ev', hev', htime⟩
          exact ⟨ev', List.mem_cons_of_mem _ hev', htime⟩
      · rw [if_neg hadm] at hx
        rcases ih _ x hx with ⟨ev', hev', htime⟩
        exact ⟨ev', List.mem_cons_of_mem _ hev', htime⟩
    | status now =>
      simp only [runGateway] at hx
      rcases ih _ x hx with ⟨ev', hev', htime⟩
      exact ⟨ev', List.mem_cons_of_mem _ hev', htime⟩

theorem countP_purge_eq (t now : ℤ) (ts : List ℤ) (h : now ≤ t) :
    (purgeOld now ts).countP (inWin t) = ts.countP (inWin t) := by
  unfold purgeOld
  rw [List.countP_filter]
  refine List.countP_congr fun a ha => ?_
  simp only [inWin, Bool.and_eq_true, decide_eq_true_eq]
  omega

theorem run_window_bound (evs : List GEvent) : ∀ (st : GeminiState) (t : ℤ),
    (evs.map GEvent.time).Pairwise (· ≤ ·) →
    st.requestTimestamps.length ≤ requests_per_minute →
    (runGateway st evs).2.countP (inWin t) + st.requestTimestamps.countP (inWin t)
      ≤ requests_per_minute := by
  induction evs with
  | nil =>
    intro st t _ hlen
    simpa [runGateway] using le_trans (List.countP_le_length _) hlen
  | cons ev rest ih =>
    intro st t hsort hlen
    have hsort' : (rest.map GEvent.time).Pairwise (· ≤ ·) :=
      (List.pairwise_cons.mp hsort).2
    have hhead : ∀ x ∈ rest.map GEvent.time, GEvent.time ev ≤ x :=
      (List.pairwise_cons.mp hsort).1
    cases ev with
    | status now =>
      have hrun : runGateway st (.status now :: rest)
          = runGateway (get_api_status st now).2 rest := rfl
      have hlen2 : (get_api_status st now).2.requestTimestamps.length
          ≤ requests_per_minute :=
        le_trans (List.length_filter_le _ _) hlen
      by_cases hnt : now ≤ t
      · have hih := ih (get_api_status st now).2 t hsort' hlen2
        rw [hrun]
        have hpe : (get_api_status st now).2.requestTimestamps.countP (inWin t)
            = st.requestTimestamps.countP (inWin t) := countP_purge_eq t now _ hnt
        omega
      · rw [hrun]
        have hz : (runGateway (get_api_status st now).2 rest).2.countP (inWin t) = 0 := by
          rw [List.countP_eq_zero]
          intro x hx
          rcases adm_times_subset rest _ x hx with ⟨ev', hev', rfl⟩
          have hle : (now : ℤ) ≤ GEvent.time ev' :=
            hhead _ (List.mem_map.mpr ⟨ev', hev', rfl⟩)
          simp only [inWin, Bool.and_eq_true, decide_eq_true_eq, not_and]
          omega
        rw [hz]
        simpa using le_trans (List.countP_le_length _) hlen
    | gen now p T orc c =>
      have hshape := gen_rate_shape st p T now orc c
      have hrun : (runGateway st (.gen now p T orc c :: rest)).2
          = (if (generate_response st p T now orc c).admitted then
              now :: (runGateway (generate_response st p T now orc c).state rest).2
            else (runGateway (generate_response st p T now orc c).state rest).2) := rfl
      have hz0 : ¬ now ≤ t →
          (runGateway (generate_response st p T now orc c).state rest).2.countP (inWin t)
            = 0 := by
        intro hnt
        rw [List.countP_eq_zero]
        intro x hx
        rcases adm_times_subset rest _ x hx with ⟨ev', hev', rfl⟩
        have hle : (now : ℤ) ≤ GEvent.time ev' :=
          hhead _ (List.mem_map.mpr ⟨ev', hev', rfl⟩)
        simp only [inWin, Bool.and_eq_true, decide_eq_true_eq, not_and]
        omega
      by_cases hadm : (generate_response st p T now orc c).admitted
      · have hts := hshape.1 hadm
        have hlen2 : (generate_response st p T now orc c).state.requestTimestamps.length
            ≤ requests_per_minute := by
          rw [hts.1]
          have hlt := hts.2
          simp only [List.length_append, List.length_cons, List.length_nil]
          omega
        have hih := ih (generate_response st p T now orc c).state t hsort' hlen2
        rw [hrun, if_pos hadm, List.countP_cons]
        rw [hts.1, List.countP_append] at hih
        by_cases hnt : now ≤ t
        · have hpe : (purgeOld now st.requestTimestamps).countP (inWin t)
              = st.requestTimestamps.countP (inWin t) := countP_purge_eq t now _ hnt
          rw [hpe] at hih
          have hsingle : ([now] : List ℤ).countP (inWin t)
              = if inWin t now then 1 else 0 := by
            simp [List.countP_cons]
          rw [hsingle] at hih
          omega
        · have hz := hz0 hnt
          have hdec : decide ((now : ℤ) ≤ t) = false := decide_eq_false hnt
          have hwin : inWin t now = false := by simp [inWin, hdec]
          rw [hz, hwin]
          simpa using le_trans (List.countP_le_length _) hlen
      · have hadm' : (generate_response st p T now orc c).admitted = false := by
          revert hadm; cases (generate_response st p T now orc c).admitted <;> simp
        rcases hshape.2 hadm' with hts | hts
        · have hlen2 : (generate_response st p T now orc c).state.requestTimestamps.length
              ≤ requests_per_minute := by rw [hts]; exact hlen
          have hih := ih (generate_response st p T now orc c).state t hsort' hlen2
          rw [hts] at hih
          rw [hrun, if_neg hadm]
          exact hih
        · have hlen2 : (generate_response st p T now orc c).state.requestTimestamps.length
              ≤ requests_per_minute := by
            rw [hts]; exact le_trans (List.length_filter_le _ _) hlen
          have hih := ih (generate_response st p T now orc c).state t hsort' hlen2
          rw [hts] at hih
          rw [hrun, if_neg hadm]
          by_cases hnt : now ≤ t
          · have hpe : (purgeOld now st.requestTimestamps).countP (inWin t)
                = st.requestTimestamps.countP (inWin t) := countP_purge_eq t now _ hnt
            rw [hpe] at hih
            exact hih
          · have hz := hz0 hnt
            rw [hz]
            simpa using le_trans (List.countP_le_length _) hlen

/-- Claim C4: over any run of the gateway (calls and status queries at
nondecreasing instants, starting from the initial state), at most 10 calls are
admitted with admission instants inside any trailing 60-second window
`(t-60, t]`; and `_check_rate_limit` returns true only after purging
timestamps older than 60 seconds and only when the remaining count is
strictly below the per-minute limit of 10 (the caller then records `now`). -/
theorem c4_rate_limiter_sliding_window (configured : Bool) (day0 : ℤ)
    (evs : List GEvent) (t : ℤ)
    (hsort : (evs.map GEvent.time).Pairwise (· ≤ ·)) :
    (runGateway (initGemini configured day0) evs).2.countP (inWin t)
      ≤ requests_per_minute
    ∧ (∀ (st : GeminiState) (now : ℤ), (check_rate_limit st now).1 = true →
        (check_rate_limit st now).2.requestTimestamps = purgeOld now st.requestTimestamps
        ∧ (purgeOld now st.requestTimestamps).length < requests_per_minute) := by
  constructor
  · have h := run_window_bound evs (initGemini configured day0) t hsort
      (by simp [initGemini, requests_per_minute])
    simpa [initGemini] using h
  · exact fun st now h => (check_rate_ts_cases st now).1 h

theorem c4_rate_limiter_sliding_window_witness :
    (runGateway (initGemini true 0)
        [.gen 2 "hello" 1 (.ok "hi") 0, .gen 5 "world" 1 (.error "x") 1, .status 9]).2.countP
        (inWin 30)
      ≤ requests_per_minute :=
  (c4_rate_limiter_sliding_window true 0
    [.gen 2 "hello" 1 (.ok "hi") 0, .gen 5 "world" 1 (.error "x") 1, .status 9] 30
    (by decide)).1

/-! ### Cache-lookup lemmas and the success-path inversion (Claim C5) -/

theorem findEntry_insert_self (k : CacheKey) (r : String) (ts : ℤ) (l : List CacheEntry) :
    findEntry k (insertEntry k r ts l) = some ⟨k, r, ts⟩ := by
  induction l with
  | nil => simp [insertEntry, findEntry]
  | cons e rest ih =>
    unfold insertEntry
    split
    · unfold findEntry
      rw [if_pos rfl]
    · unfold findEntry
      rename_i hne
      rw [if_neg hne]
      exact ih

theorem insertEntry_length_of_key_mem (k : CacheKey) (r : String) (ts : ℤ)
    (l : List CacheEntry) (h : ∃ e ∈ l, e.key = k) :
    (insertEntry k r ts l).length = l.length := by
  induction l with
  | nil => rcases h with ⟨e, he, _⟩; cases he
  | cons e rest ih =>
    unfold insertEntry
    split
    · simp
    · rename_i hne
      rcases h with ⟨e', he', hk⟩
      rcases List.mem_cons.mp he' with rfl | hmem
      · exact absurd hk hne
      · simpa using ih ⟨e', hmem, hk⟩

theorem findEntry_cons (k : CacheKey) (e : CacheEntry) (rest : List CacheEntry) :
    findEntry k (e :: rest) = if e.key = k then some e else findEntry k rest := rfl

theorem findEntry_erase_of_ne (k k' : CacheKey) (hne : k' ≠ k) (l : List CacheEntry) :
    findEntry k (eraseEntry k' l) = findEntry k l := by
  induction l with
  | nil => rfl
  | cons e rest ih =>
    unfold eraseEntry
    split
    · rename_i hk'
      rw [findEntry_cons, if_neg (by rw [hk']; exact hne)]
    · rw [findEntry_cons, findEntry_cons]
      split
      · rfl
      · exact ih

theorem findEntry_append_fresh (k : CacheKey) (l1 l2 : List CacheEntry)
    (h : ∀ e ∈ l1, e.key ≠ k) : findEntry k (l1 ++ l2) = findEntry k l2 := by
  induction l1 with
  | nil => rfl
  | cons e rest ih =>
    rw [List.cons_append, findEntry_cons]
    rw [if_neg (h e (List.mem_cons_self e rest))]
    exact ih (fun e' he' => h e' (List.mem_cons_of_mem e he'))

theorem mem_of_mem_eraseEntry (k : CacheKey) (l : List CacheEntry) (e : CacheEntry)
    (h : e ∈ eraseEntry k l) : e ∈ l := by
  induction l with
  | nil => cases h
  | cons b rest ih =>
    unfold eraseEntry at h
    split at h
    · exact List.mem_cons_of_mem b h
    · rcases List.mem_cons.mp h with rfl | hmem
      · exact List.mem_cons_self _ _
      · exact List.mem_cons_of_mem b (ih hmem)

/-- After `_cache_response` on a cache of at most 100 entries whose creation
times are not in the future, the freshly written entry is found. -/
theorem findEntry_putCache (k : CacheKey) (r : String) (now : ℤ) (C : List CacheEntry)
    (hlen : C.length ≤ 100) (hts : ∀ e ∈ C, e.timestamp ≤ now) :
    findEntry k (putCache k r now C) = some ⟨k, r, now⟩ := by
  unfold putCache
  dsimp only
  split
  · rename_i hgt
    have hfresh : ∀ e ∈ C, e.key ≠ k := by
      by_contra hcon
      push_neg at hcon
      rcases hcon with ⟨e, he, hk⟩
      rw [insertEntry_length_of_key_mem k r now C ⟨e, he, hk⟩] at hgt
      omega
    rw [insertEntry_fresh k r now C hfresh] at hgt ⊢
    cases C with
    | nil => simp at hgt
    | cons b rest =>
      have hmem := oldestFrom_mem b rest
      set m := oldestFrom b rest with hm
      have hmts : m.timestamp ≤ now := by
        rcases List.mem_cons.mp hmem with h | h
        · exact h ▸ hts b (List.mem_cons_self b rest)
        · exact hts m (List.mem_cons_of_mem b h)
      have hold : oldestEntry ((b :: rest) ++ [(⟨k, r, now⟩ : CacheEntry)]) = some m := by
        show oldestEntry (b :: (rest ++ [(⟨k, r, now⟩ : CacheEntry)])) = some m
        simp only [oldestEntry, Option.some.injEq]
        rw [oldestFrom_append_single]
        rw [if_neg (show ¬((⟨k, r, now⟩ : CacheEntry).timestamp < m.timestamp) from
          not_lt.mpr hmts)]
      rw [hold]
      have hmk : m.key ≠ k := hfresh m hmem
      rw [findEntry_erase_of_ne k m.key hmk]
      rw [findEntry_append_fresh k (b :: rest) _ hfresh]
      unfold findEntry
      rw [if_pos rfl]
  · exact findEntry_insert_self k r now C

theorem check_rate_preserves_mcb (st : GeminiState) (now : ℤ) :
    (check_rate_limit st now).2.modelConfigured = st.modelConfigured
    ∧ (check_rate_limit st now).2.backoffUntil = st.backoffUntil := by
  unfold check_rate_limit
  dsimp only
  split <;> split <;> first | exact ⟨rfl, rfl⟩ | (split <;> exact ⟨rfl, rfl⟩)

theorem get_cached_preserves_mcb (st : GeminiState) (k : CacheKey) (now : ℤ) :
    (get_cached_response st k now).2.modelConfigured = st.modelConfigured
    ∧ (get_cached_response st k now).2.backoffUntil = st.backoffUntil := by
  unfold get_cached_response
  rcases findEntry k st.responseCache with _ | e
  · exact ⟨rfl, rfl⟩
  · dsimp only
    split <;> exact ⟨rfl, rfl⟩

theorem check_rate_false_of_backoff (s : GeminiState) (now b : ℤ)
    (hb : s.backoffUntil = some b) (hlt : now < b) :
    (check_rate_limit s now).1 = false := by
  have hinB : (match s.backoffUntil with
      | some x => decide (now < x) | none => false) = true := by
    rw [hb]; simpa using hlt
  unfold check_rate_limit
  dsimp only
  split
  all_goals try dsimp only
  all_goals rw [hinB]

theorem check_rate_true_backoff (s : GeminiState) (now : ℤ)
    (h : (check_rate_limit s now).1 = true) :
    ∀ b, s.backoffUntil = some b → ¬ now < b := by
  intro b hb hlt
  rw [check_rate_false_of_backoff s now b hb hlt] at h
  cases h

theorem check_rate_true_of (s : GeminiState) (now : ℤ)
    (hb : ∀ b, s.backoffUntil = some b → ¬ now < b)
    (hp : (purgeOld now s.requestTimestamps).length < requests_per_minute) :
    (check_rate_limit s now).1 = true := by
  have hinB : (match s.backoffUntil with
      | some x => decide (now < x) | none => false) = false := by
    rcases hbo : s.backoffUntil with _ | b
    · rfl
    · simpa using hb b hbo
  unfold check_rate_limit
  dsimp only
  split
  all_goals try dsimp only
  all_goals rw [hinB, if_neg (by simp), if_neg (not_le.mpr hp)]

/-- The state the success path of `generate_response` produces: admitted,
tokens spent, failures reset, response cached. -/
def okSuccessState (st : GeminiState) (p : String) (T : ℚ) (now : ℤ) (r : String) :
    GeminiState :=
  let cr := get_cached_response st (p, T) now
  let rl := check_rate_limit cr.2 now
  let st2 : GeminiState := { rl.2 with requestTimestamps := rl.2.requestTimestamps ++ [now] }
  cache_response
    { st2 with dailyTokenCount := st2.dailyTokenCount + estimate_tokens p,
               consecutiveFailures := 0 } (p, T) r now

/-- Inversion: if a call with a successful model outcome actually invoked the
model, then the model was configured, the rate check admitted, the quota check
passed, and the result is exactly the success record. -/
theorem gen_ok_inv (st : GeminiState) (p : String) (T : ℚ) (now : ℤ) (r : String) (c : Nat)
    (h : (generate_response st p T now (.ok r) c).modelCalled = true) :
    st.modelConfigured = true
    ∧ (check_rate_limit (get_cached_response st (p, T) now).2 now).1 = true
    ∧ (check_rate_limit (get_cached_response st (p, T) now).2 now).2.dailyTokenCount
        + estimate_tokens p < max_tokens_per_day
    ∧ generate_response st p T now (.ok r) c = ⟨r, okSuccessState st p T now r, true, true⟩ := by
  unfold generate_response at h
  split at h
  · cases h
  · rename_i hm
    have hconf : st.modelConfigured = true := by
      revert hm; cases st.modelConfigured <;> simp
    dsimp only at h
    split_ifs at h with h1 h2 h3
    have hrt : (check_rate_limit (get_cached_response st (p, T) now).2 now).1 = true := by
      revert h2; cases (check_rate_limit (get_cached_response st (p, T) now).2 now).1 <;>
        simp
    refine ⟨hconf, hrt, not_le.mp h3, ?_⟩
    unfold generate_response
    rw [if_neg hm]
    dsimp only
    rw [if_neg h1, if_neg (by rw [hrt]; simp), if_neg h3]
    rfl

/-- Claim C5, counterexample: when the first call produced and cached the
model response "" (the empty string), a repeated call with the same pair well
within the TTL invokes the model again — the code treats the falsy cached
string as a miss — contradicting "returns byte-identical text without a new
model invocation". -/
theorem c5_cex_empty_cached_text_reinvokes_model :
    (generate_response (initGemini true 0) "hi" 1 0 (.ok "") 0).modelCalled = true
    ∧ (10 : ℤ) - 0 ≤ cache_ttl
    ∧ (generate_response (generate_response (initGemini true 0) "hi" 1 0 (.ok "") 0).state
        "hi" 1 10 (.ok "") 0).modelCalled = true :=
  ⟨by decide, by decide, by decide⟩

/-- Claim C5 (amended): if the first call reached the model and cached a
non-empty text `r` (from a state whose cache is within capacity and whose
stored timestamps are not in the future), then every repeated call with the
same (prompt, temperature) within the TTL returns the byte-identical text
without invoking the model; and a repeated call after the TTL has elapsed
invokes the model again, provided the daily token check still admits the
estimate. -/
theorem c5_cache_ttl_behavior (st0 : GeminiState) (p r : String) (T : ℚ)
    (now0 now1 : ℤ) (or2 : Except String String) (c0 c2 : ℕ)
    (hclen : st0.responseCache.length ≤ 100)
    (hcts : ∀ e ∈ st0.responseCache, e.timestamp ≤ now0)
    (hts : ∀ s ∈ st0.requestTimestamps, s ≤ now0)
    (hmc : (generate_response st0 p T now0 (.ok r) c0).modelCalled = true)
    (hr : r ≠ "") (h01 : now0 ≤ now1) :
    (now1 - now0 ≤ cache_ttl →
      (generate_response (generate_response st0 p T now0 (.ok r) c0).state p T now1
          or2 c2).text = r
      ∧ (generate_response (generate_response st0 p T now0 (.ok r) c0).state p T now1
          or2 c2).modelCalled = false)
    ∧ (cache_ttl < now1 - now0 →
       (generate_response st0 p T now0 (.ok r) c0).state.dailyTokenCount
           + estimate_tokens p < max_tokens_per_day →
      (generate_response (generate_response st0 p T now0 (.ok r) c0).state p T now1
          or2 c2).modelCalled = true) := by
  obtain ⟨hconf, hrl, hq, heq⟩ := gen_ok_inv st0 p T now0 r c0 hmc
  have hstate : (generate_response st0 p T now0 (.ok r) c0).state
      = okSuccessState st0 p T now0 r := by rw [heq]
  set st1 := okSuccessState st0 p T now0 r with hst1
  have hC : st1.responseCache
      = putCache (p, T) r now0 (get_cached_response st0 (p, T) now0).2.responseCache := by
    show (cache_response _ (p, T) r now0).responseCache = _
    dsimp only [cache_response]
    rw [check_rate_preserves_cache]
  have hCle : (get_cached_response st0 (p, T) now0).2.responseCache.length ≤ 100 := by
    rcases get_cached_cache_cases st0 (p, T) now0 with h2 | h2 <;> rw [h2]
    · exact hclen
    · exact le_trans (eraseEntry_length_le _ _) hclen
  have hCts : ∀ e ∈ (get_cached_response st0 (p, T) now0).2.responseCache,
      e.timestamp ≤ now0 := by
    rcases get_cached_cache_cases st0 (p, T) now0 with h2 | h2 <;> rw [h2]
    · exact hcts
    · exact fun e he => hcts e (mem_of_mem_eraseEntry _ _ e he)
  have hfind : findEntry (p, T) st1.responseCache = some ⟨(p, T), r, now0⟩ := by
    rw [hC]
    exact findEntry_putCache (p, T) r now0 _ hCle hCts
  have hm1 : st1.modelConfigured = true := by
    show (cache_response _ (p, T) r now0).modelConfigured = true
    dsimp only [cache_response]
    rw [(check_rate_preserves_mcb _ _).1, (get_cached_preserves_mcb _ _ _).1]
    exact hconf
  have hb1 : ∀ b, st1.backoffUntil = some b → st0.backoffUntil = some b := by
    intro b hb
    rw [← (get_cached_preserves_mcb st0 (p, T) now0).2,
        ← (check_rate_preserves_mcb (get_cached_response st0 (p, T) now0).2 now0).2]
    exact hb
  have hts1 : ∀ s ∈ st1.requestTimestamps, s ≤ now0 := by
    have hshape := (check_rate_ts_cases (get_cached_response st0 (p, T) now0).2 now0).1 hrl
    have hts1eq : st1.requestTimestamps
        = (check_rate_limit (get_cached_response st0 (p, T) now0).2
            now0).2.requestTimestamps ++ [now0] := rfl
    rw [hts1eq, hshape.1, get_cached_preserves_ts]
    intro s hs
    rcases List.mem_append.mp hs with hs | hs
    · exact hts s (List.mem_of_mem_filter hs)
    · rw [List.mem_singleton.mp hs]
  constructor
  · intro httl
    have hcr2 : get_cached_response st1 (p, T) now1 = (some r, st1) := by
      unfold get_cached_response
      rw [hfind]
      dsimp only
      rw [if_neg (show ¬(cache_ttl < now1 -
          (⟨(p, T), r, now0⟩ : CacheEntry).timestamp) from not_lt.mpr httl)]
    have hres : generate_response st1 p T now1 or2 c2 = ⟨r, st1, false, false⟩ := by
      unfold generate_response
      rw [if_neg (by rw [hm1]; simp)]
      dsimp only
      simp only [hcr2, Option.getD_some]
      rw [if_pos hr]
    rw [hstate]
    exact ⟨by rw [hres], by rw [hres]⟩
  · intro httl hq2
    have httl' : (3600 : ℤ) < now1 - now0 := httl
    rw [hstate] at hq2
    have hcr2 : get_cached_response st1 (p, T) now1
        = (none, { st1 with responseCache := eraseEntry (p, T) st1.responseCache }) := by
      unfold get_cached_response
      rw [hfind]
      dsimp only
      rw [if_pos (show cache_ttl < now1 -
          (⟨(p, T), r, now0⟩ : CacheEntry).timestamp from httl)]
    set st1e := { st1 with responseCache := eraseEntry (p, T) st1.responseCache }
      with hst1e
    have hrl2 : (check_rate_limit st1e now1).1 = true := by
      apply check_rate_true_of
      · intro b hbe hlt
        have hb0 : st0.backoffUntil = some b := hb1 b hbe
        have hcb := check_rate_true_backoff _ now0 hrl b
          (by rw [(get_cached_preserves_mcb st0 (p, T) now0).2]; exact hb0)
        have : b ≤ now0 := not_lt.mp hcb
        omega
      · have hpe : purgeOld now1 st1e.requestTimestamps = [] := by
          apply List.filter_eq_nil_iff.mpr
          intro s hs
          have hsle : s ≤ now0 := hts1 s hs
          simp only [decide_eq_true_eq]
          omega
        rw [hpe]
        decide
    have hdq : (check_rate_limit st1e now1).2.dailyTokenCount + estimate_tokens p
        < max_tokens_per_day := by
      rcases check_rate_daily_cases st1e now1 with hd | hd <;> rw [hd]
      · exact hq2
      · calc (0 : Nat) + estimate_tokens p
            ≤ st1.dailyTokenCount + estimate_tokens p := by omega
          _ < max_tokens_per_day := hq2
    rw [hstate]
    unfold generate_response
    rw [if_neg (by rw [hm1]; simp)]
    dsimp only
    simp only [hcr2]
    rw [if_neg (by simp)]
    rw [if_neg (by rw [hrl2]; simp)]
    rw [if_neg (not_le.mpr hdq)]
    cases or2 <;> rfl

theorem c5_cache_ttl_behavior_witness :
    ((generate_response (generate_response (initGemini true 0) "hi" 1 0 (.ok "ok") 0).state
        "hi" 1 20 (.ok "zz") 1).text = "ok"
      ∧ (generate_response (generate_response (initGemini true 0) "hi" 1 0 (.ok "ok") 0).state
        "hi" 1 20 (.ok "zz") 1).modelCalled = false)
    ∧ (generate_response (generate_response (initGemini true 0) "hi" 1 0 (.ok "ok") 0).state
        "hi" 1 9999 (.ok "zz") 1).modelCalled = true :=
  ⟨(c5_cache_ttl_behavior (initGemini true 0) "hi" "ok" 1 0 20 (.ok "zz") 0 1
      (by decide) (by decide) (by decide) (by decide) (by decide) (by decide)).1 (by decide),
   (c5_cache_ttl_behavior (initGemini true 0) "hi" "ok" 1 0 9999 (.ok "zz") 0 1
      (by decide) (by decide) (by decide) (by decide) (by decide) (by decide)).2
      (by decide) (by decide)⟩

/-! ### Fallback classification end-to-end (Claim C8) -/

set_option maxRecDepth 8000

/-- Claim C8, counterexample: a message containing "exam pressure" and free of
every anxiety/distress and low-mood keyword can still contain a crisis keyword
("die"); then `process_message` returns the crisis redirect, not a member of
the academic-stress template pool. -/
theorem c8_cex_crisis_keyword_preempts_academic_pool :
    containsSub "exam pressure makes me want to die" "exam pressure" = true
    ∧ (∀ kw ∈ anxiety_keywords,
        containsSub (lowerStr "exam pressure makes me want to die") kw = false)
    ∧ (∀ kw ∈ sadness_keywords,
        containsSub (lowerStr "exam pressure makes me want to die") kw = false)
    ∧ (process_message (initGemini false 0) "exam pressure makes me want to die" [] none 0
        (.ok "x") 0).1 = .crisis crisis_response_medium "medium" ["die"]
    ∧ crisis_response_medium ∉ academic_responses := by
  refine ⟨by decide, by decide, by decide, by decide, by decide⟩

theorem msg_infix_buildPrompt (s : String) (history : List (String × String))
    (topic : Option String) : s.data <:+: (buildPrompt s history topic).data := by
  unfold buildPrompt
  dsimp only
  have hmem : ("\nUser: " ++ s) ∈ (bestie_prompt_parts ++
      (if (context_lines history topic).isEmpty then []
       else ["\n" ++ joinNL (context_lines history topic)]) ++
      ["\nUser: " ++ s, "\nBestie: "]) := by
    refine List.mem_append.mpr (Or.inr ?_)
    simp
  have h1 := joinNL_part_infix _ _ hmem
  refine List.IsInfix.trans ?_ h1
  rw [string_data_append]
  exact (List.suffix_append _ _).isInfix

/-- Claim C8 (amended): with no model configured, for every message that
contains "exam pressure" after stripping, passes validation (stripped length
at most 2000), contains no crisis keyword (case-insensitively), and whose
assembled prompt (boilerplate + optional topic/history context + message)
contains no anxiety/distress or low-mood keyword, the end-to-end
`process_message` response is a member of the academic-stress template pool:
the fallback classifier tries anxiety, then low-mood, then academic keyword
sets in priority order and "exam"/"pressure" select the academic pool. -/
theorem c8_academic_stress_fallback (gst : GeminiState) (msg : String)
    (history : List (String × String)) (topic : Option String) (now : ℤ)
    (orc : Except String String) (choice : ℕ)
    (hm : gst.modelConfigured = false)
    (hex : containsSub (pyStrip msg) "exam pressure" = true)
    (hlen : (pyStrip msg).length ≤ MAX_MESSAGE_LENGTH)
    (hcr : ∀ kw ∈ crisis_keywords_list,
      containsSub (lowerStr (pyStrip msg)) (lowerStr kw) = false)
    (hanx : ∀ kw ∈ anxiety_keywords,
      containsSub (lowerStr (buildPrompt (pyStrip msg) history topic)) kw = false)
    (hsad : ∀ kw ∈ sadness_keywords,
      containsSub (lowerStr (buildPrompt (pyStrip msg) history topic)) kw = false) :
    (process_message gst msg history topic now orc choice).1
      = .chat (pickResponse academic_responses choice) topic
    ∧ pickResponse academic_responses choice ∈ academic_responses := by
  have hne0 : (pyStrip msg).length ≠ 0 := by
    rcases (containsSub_iff _ _).mp hex with ⟨u, v, huv⟩
    have hlen2 : (pyStrip msg).data.length
        = u.length + "exam pressure".data.length + v.length := by
      rw [← huv]; simp; omega
    have h13 : "exam pressure".data.length = 13 := by decide
    show (pyStrip msg).data.length ≠ 0
    omega
  have hmsgne : ¬(msg = "") := by
    intro h0; rw [h0] at hne0; exact hne0 (by decide)
  have hval : validate_message msg = .valid (pyStrip msg) := by
    unfold validate_message
    rw [if_neg (not_or.mpr ⟨hmsgne, hne0⟩), if_neg (not_lt.mpr hlen)]
  have hcd : detect_crisis (pyStrip msg) = ⟨false, "none", []⟩ := by
    have hmatched : crisis_keywords_list.filter
        (fun kw => containsSub (lowerStr (pyStrip msg)) (lowerStr kw)) = [] := by
      apply List.filter_eq_nil_iff.mpr
      intro kw hkw
      simp [hcr kw hkw]
    simp [detect_crisis, hmatched]
  have hanxa : (anxiety_keywords.any fun w =>
      containsSub (lowerStr (buildPrompt (pyStrip msg) history topic)) w) = false :=
    List.any_eq_false.mpr (fun kw hkw => by simp [hanx kw hkw])
  have hsada : (sadness_keywords.any fun w =>
      containsSub (lowerStr (buildPrompt (pyStrip msg) history topic)) w) = false :=
    List.any_eq_false.mpr (fun kw hkw => by simp [hsad kw hkw])
  have hacad : (academic_keywords.any fun w =>
      containsSub (lowerStr (buildPrompt (pyStrip msg) history topic)) w) = true := by
    refine List.any_eq_true.mpr ⟨"exam", by decide, ?_⟩
    rw [containsSub_iff, lowerStr_data]
    have h1 : ("exam".data : List Char) <:+: "exam pressure".data := by decide
    have h2 : ("exam pressure".data : List Char) <:+: (pyStrip msg).data :=
      (containsSub_iff _ _).mp hex
    have h3 : ((pyStrip msg).data : List Char)
        <:+: (buildPrompt (pyStrip msg) history topic).data :=
      msg_infix_buildPrompt (pyStrip msg) history topic
    have h2l := h2.map Char.toLower
    rw [show ("exam pressure".data.map Char.toLower) = "exam pressure".data by decide] at h2l
    exact (h1.trans h2l).trans (h3.map Char.toLower)
  have hfb : generate_fallback_response (buildPrompt (pyStrip msg) history topic) choice
      = pickResponse academic_responses choice := by
    unfold generate_fallback_response
    dsimp only
    rw [hanxa, if_neg (by simp)]
    rw [hsada, if_neg (by simp)]
    rw [hacad, if_pos rfl]
  have hgen : generate_response gst (buildPrompt (pyStrip msg) history topic) (7 / 10)
      now orc choice
      = ⟨generate_fallback_response (buildPrompt (pyStrip msg) history topic) choice,
         gst, false, false⟩ := by
    unfold generate_response
    rw [if_pos hm]
  have hcleanAll : ∀ x ∈ academic_responses, clean_bestie_response x = x := by decide
  have hmemA : pickResponse academic_responses choice ∈ academic_responses := by
    unfold pickResponse
    have hidx : choice % academic_responses.length < academic_responses.length :=
      Nat.mod_lt _ (by decide)
    rw [List.getD_eq_getElem academic_responses "" hidx]
    exact List.getElem_mem hidx
  refine ⟨?_, hmemA⟩
  unfold process_message
  rw [hval]
  dsimp only
  rw [hcd]
  rw [if_neg (by simp)]
  rw [hgen]
  dsimp only
  rw [hfb, hcleanAll _ hmemA]

theorem c8_academic_stress_fallback_witness :
    (process_message (initGemini false 5) "exam pressure" [] none 3 (.ok "q") 2).1
      = .chat (pickResponse academic_responses 2) none
    ∧ pickResponse academic_responses 2 ∈ academic_responses :=
  c8_academic_stress_fallback (initGemini false 5) "exam pressure" [] none 3 (.ok "q") 2
    (by decide) (by decide) (by decide) (by decide) (by decide) (by decide)

end ManMitra
